import Mathlib

/-!
Verification of the process-lifecycle / duplex-transport core of the
MCP-CriticAgent repository (`src/core/simple_mcp_deployer.py`).

The Python code is shallowly embedded: bytes are `Nat` (values 0..255 in
all reachable states), Python `str` values handled by the frame decoder are
lists of Unicode codepoints (`Nat`), and every loop is expressed with an
explicit fuel argument equal to the buffer length, which is proved
sufficient (`tryExtractF_fuel_irrel`, `drainF_fuel_irrel`), so that all
definitions are executable and all concrete facts are settled by `decide`.
-/

namespace MCP

/-! ### UTF-8 decoding with ignored errors

Model of the Python expression `self._buffer.decode('utf-8', errors='ignore')`
used by `SimpleMCPCommunicator._try_extract_message`.  `utf8Step b l`
processes the lead byte `b` with remaining bytes `l`: it returns the decoded
codepoint (or `none` when the byte starts an invalid or incomplete sequence,
which is skipped) together with the bytes not yet consumed. -/

def isCont (c : Nat) : Prop := 0x80 ≤ c ∧ c ≤ 0xBF

instance (c : Nat) : Decidable (isCont c) := by unfold isCont; infer_instance

/-- Validity of the second byte of a 3-byte sequence, per CPython
(excludes overlong encodings and surrogates). -/
def validSecond3 (b c : Nat) : Prop :=
  (b = 0xE0 ∧ 0xA0 ≤ c ∧ c ≤ 0xBF) ∨ (b = 0xED ∧ 0x80 ≤ c ∧ c ≤ 0x9F) ∨
    (b ≠ 0xE0 ∧ b ≠ 0xED ∧ isCont c)

instance (b c : Nat) : Decidable (validSecond3 b c) := by
  unfold validSecond3; infer_instance

/-- Validity of the second byte of a 4-byte sequence, per CPython
(excludes overlong encodings and codepoints above the Unicode maximum). -/
def validSecond4 (b c : Nat) : Prop :=
  (b = 0xF0 ∧ 0x90 ≤ c ∧ c ≤ 0xBF) ∨ (b = 0xF4 ∧ 0x80 ≤ c ∧ c ≤ 0x8F) ∨
    (b ≠ 0xF0 ∧ b ≠ 0xF4 ∧ isCont c)

instance (b c : Nat) : Decidable (validSecond4 b c) := by
  unfold validSecond4; infer_instance

/-- Decode one UTF-8 sequence starting at lead byte `b`; invalid prefixes
are skipped (the `errors='ignore'` behaviour). Returns the codepoint, if
any, and the unconsumed rest of the input. -/
def utf8Step (b : Nat) (l : List Nat) : Option Nat × List Nat :=
  if b < 0x80 then (some b, l)
  else if 0xC2 ≤ b ∧ b ≤ 0xDF then
    match l with
    | [] => (none, [])
    | c :: l2 =>
      if isCont c then (some ((b - 0xC0) * 64 + (c - 0x80)), l2)
      else (none, c :: l2)
  else if 0xE0 ≤ b ∧ b ≤ 0xEF then
    match l with
    | [] => (none, [])
    | [c1] => if validSecond3 b c1 then (none, []) else (none, [c1])
    | c1 :: c2 :: l3 =>
      if validSecond3 b c1 then
        if isCont c2 then
          (some ((b - 0xE0) * 4096 + (c1 - 0x80) * 64 + (c2 - 0x80)), l3)
        else (none, c2 :: l3)
      else (none, c1 :: c2 :: l3)
  else if 0xF0 ≤ b ∧ b ≤ 0xF4 then
    match l with
    | [] => (none, [])
    | [c1] => if validSecond4 b c1 then (none, []) else (none, [c1])
    | [c1, c2] =>
      if validSecond4 b c1 then
        if isCont c2 then (none, []) else (none, [c2])
      else (none, [c1, c2])
    | c1 :: c2 :: c3 :: l4 =>
      if validSecond4 b c1 then
        if isCont c2 then
          if isCont c3 then
            (some ((b - 0xF0) * 262144 + (c1 - 0x80) * 4096 +
              (c2 - 0x80) * 64 + (c3 - 0x80)), l4)
          else (none, c3 :: l4)
        else (none, c2 :: c3 :: l4)
      else (none, c1 :: c2 :: c3 :: l4)
  else (none, l)

/-- Fuel-indexed UTF-8 decode; fuel at least `length` is always sufficient. -/
def utf8DecodeIgnoreF : Nat → List Nat → List Nat
  | 0, _ => []
  | _, [] => []
  | fuel + 1, b :: l =>
    match utf8Step b l with
    | (some c, l2) => c :: utf8DecodeIgnoreF fuel l2
    | (none, l2) => utf8DecodeIgnoreF fuel l2

/-- Model of the byte-to-codepoint decode used on the frame buffer. -/
def utf8DecodeIgnore (l : List Nat) : List Nat := utf8DecodeIgnoreF l.length l

/-- Model of Python UTF-8 encoding of a single codepoint. -/
def utf8EncodeChar (n : Nat) : List Nat :=
  if n < 0x80 then [n]
  else if n < 0x800 then [0xC0 + n / 64, 0x80 + n % 64]
  else if n < 0x10000 then
    [0xE0 + n / 4096, 0x80 + (n / 64) % 64, 0x80 + n % 64]
  else
    [0xF0 + n / 262144, 0x80 + (n / 4096) % 64, 0x80 + (n / 64) % 64,
      0x80 + n % 64]

/-- Model of the codepoint-to-byte re-encoding `remaining.encode('utf-8')`. -/
def utf8Encode (s : List Nat) : List Nat := (s.map utf8EncodeChar).flatten

/-- Number of bytes the emitted codepoint (if any) re-encodes to. -/
def encLenOpt : Option Nat → Nat
  | none => 0
  | some c => (utf8EncodeChar c).length

/-! ### Frame extraction

Model of `SimpleMCPCommunicator._try_extract_message` and of the reader
thread drain loop in `start_reader_thread` (`src/core/simple_mcp_deployer.py`,
lines 41-123).  The buffer is the raw byte sequence `self._buffer`; a Python
`str` is a list of codepoints. -/

/-- Codepoints stripped by Python `str.strip()` (whitespace). -/
def pySpaceList : List Nat :=
  [9, 10, 11, 12, 13, 28, 29, 30, 31, 32, 133, 160, 5760, 8192, 8193, 8194,
    8195, 8196, 8197, 8198, 8199, 8200, 8201, 8202, 8232, 8233, 8239, 8287,
    12288]

/-- Truthiness of `message_line.strip()`: some non-whitespace char remains. -/
def hasNonSpace (s : List Nat) : Bool := s.any (fun c => !(pySpaceList.contains c))

/-- Model of `message_line.rstrip(CR)`: drop all trailing carriage returns. -/
def dropTrailingCR (s : List Nat) : List Nat :=
  (s.reverse.dropWhile (fun c => c == 13)).reverse

/-- Model of `buffer_str.find(newline)` plus the prefix/suffix split: the
text before the first newline and the remainder after it, if any. -/
def splitFirstNL (s : List Nat) : Option (List Nat × List Nat) :=
  if 10 ∈ s then
    some (s.takeWhile (fun c => c != 10), (s.dropWhile (fun c => c != 10)).drop 1)
  else none

/-- Fuel-indexed model of `SimpleMCPCommunicator._try_extract_message`:
decode the buffer, locate the first newline, strip trailing carriage
returns, skip whitespace-only lines, and return the message together with
the new buffer contents.  Fuel at least the buffer length is sufficient. -/
def tryExtractF : Nat → List Nat → Option (List Nat) × List Nat
  | 0, buf => (none, buf)
  | fuel + 1, buf =>
    match splitFirstNL (utf8DecodeIgnore buf) with
    | none => (none, buf)
    | some (pre, post) =>
      let line := dropTrailingCR pre
      let buf2 := utf8Encode post
      if hasNonSpace line then (some line, buf2)
      else if post.isEmpty then (none, buf2)
      else tryExtractF fuel buf2

/-- Model of `_try_extract_message`, returning the optional message and the
updated `self._buffer`. -/
def tryExtractMessage (buf : List Nat) : Option (List Nat) × List Nat :=
  tryExtractF buf.length buf

/-- Fuel-indexed model of the reader-thread drain loop: repeatedly call
`_try_extract_message`, collecting messages in arrival order, until it
returns `none` (`start_reader_thread`, lines 54-58). -/
def drainF : Nat → List Nat → List (List Nat) × List Nat
  | 0, buf => ([], buf)
  | fuel + 1, buf =>
    match tryExtractMessage buf with
    | (none, b2) => ([], b2)
    | (some m, b2) =>
      let r := drainF fuel b2
      (m :: r.1, r.2)

/-- Drain the buffer to exhaustion; fuel equal to the buffer length is
proved sufficient (`drainF_rest`). -/
def drainBuffer (buf : List Nat) : List (List Nat) × List Nat :=
  drainF buf.length buf

/-- State of the frame decoder: the byte buffer plus the messages pushed to
the response queue so far, in order. -/
structure DecoderState where
  buffer : List Nat
  messages : List (List Nat)
deriving DecidableEq

/-- One reader iteration: append the bytes read to the buffer and drain it
to exhaustion, queueing every extracted message in order. -/
def feedChunk (st : DecoderState) (chunk : List Nat) : DecoderState :=
  let r := drainBuffer (st.buffer ++ chunk)
  ⟨r.2, st.messages ++ r.1⟩

/-- Feed a sequence of chunks to a fresh decoder. -/
def feedChunks (chunks : List (List Nat)) : DecoderState :=
  chunks.foldl feedChunk ⟨[], []⟩

/-- Reachable decoder states while consuming the byte stream `A NL B NL`,
indexed by the bytes still to be fed. -/
def c1Good (st : DecoderState) (rest : List Nat) : Prop :=
  (st = ⟨[], []⟩ ∧ rest = [65, 10, 66, 10]) ∨
  (st = ⟨[65], []⟩ ∧ rest = [10, 66, 10]) ∨
  (st = ⟨[], [[65]]⟩ ∧ rest = [66, 10]) ∨
  (st = ⟨[66], [[65]]⟩ ∧ rest = [10]) ∨
  (st = ⟨[], [[65], [66]]⟩ ∧ rest = [])

instance (st : DecoderState) (rest : List Nat) : Decidable (c1Good st rest) := by
  unfold c1Good
  infer_instance

/-! ### Runtime resolution and process launching

Model of `SimpleMCPDeployer._get_runtime_info`, `_build_runtime_command`,
`detect_simple_platform` (the URL-based variant) and `_try_start_process`
(`src/core/simple_mcp_deployer.py`, lines 235-410).  Spawning is abstracted
by an oracle `spawn : Nat → SpawnOutcome` giving, per attempt, whether the
process had exited when polled after the grace period and its captured
stderr. -/

/-- Python truthiness of an optional string (`None` and the empty string
are falsy). -/
def truthy : Option String → Bool
  | none => false
  | some s => !s.isEmpty

/-- Reading an optional string where Python would use the value directly;
`none` renders as Python `None` (reachable only on paths the deployer
guards by an availability check). -/
def optStr : Option String → String
  | none => "None"
  | some s => s

/-- Accumulator-based whitespace tokenizer over the character list. -/
def pySplitAux : List Char → List Char → List (List Char)
  | [], acc => if acc.isEmpty then [] else [acc.reverse]
  | c :: t, acc =>
    if c.isWhitespace then
      if acc.isEmpty then pySplitAux t [] else acc.reverse :: pySplitAux t []
    else pySplitAux t (c :: acc)

/-- Model of Python `str.split()` with no argument: split on whitespace
runs, discarding empty fragments. -/
def pySplit (s : String) : List String :=
  (pySplitAux s.toList []).map (fun w => String.mk w)

/-- Fuel-indexed model of Python `str.replace` (non-overlapping, left to
right); fuel at least the string length is sufficient for the non-empty
patterns used here. -/
def pyReplaceF : Nat → List Char → List Char → List Char → List Char
  | 0, l, _, _ => l
  | fuel + 1, l, pat, rep =>
    match l with
    | [] => []
    | c :: t =>
      if pat.isPrefixOf (c :: t) then
        rep ++ pyReplaceF fuel ((c :: t).drop pat.length) pat rep
      else c :: pyReplaceF fuel t pat rep

/-- Model of Python `str.replace` on strings. -/
def pyReplace (s pat rep : String) : String :=
  String.mk (pyReplaceF s.toList.length s.toList pat.toList rep.toList)

/-- Model of the Python `in` operator on strings (contiguous substring). -/
def containsSub : List Char → List Char → Bool
  | n, [] => n.isEmpty
  | n, c :: t => n.isPrefixOf (c :: t) || containsSub n t

inductive RuntimeType where
  | npx
  | uvx
deriving DecidableEq

/-- Model of the `runtime_info` dict built by `_get_runtime_info`. -/
structure RuntimeInfo where
  runtimeType : RuntimeType
  runtimePath : Option String
  displayName : String
  available : Bool
deriving DecidableEq

/-- Model of the `platform_info` snapshot from `detect_simple_platform()`
(module level): which package runners are installed and where. -/
structure PlatformInfo where
  nodeAvailable : Bool
  npxPath : Option String
  uvAvailable : Bool
  uvxPath : Option String
deriving DecidableEq

/-- URL markers that select the uvx runtime in
`SimpleMCPDeployer.detect_simple_platform`. -/
def uvxIndicators : List String := ["/uv-", "uvx://", "uv-mcp", "-uv-", "uv_mcp"]

/-- Model of `SimpleMCPDeployer.detect_simple_platform`: the runtime kind
inferred from a GitHub URL. -/
def detectSimplePlatformUrl (url : String) : RuntimeType :=
  if uvxIndicators.any (fun ind => containsSub ind.toList url.toList) then
    RuntimeType.uvx
  else RuntimeType.npx

/-- Model of `SimpleMCPDeployer._get_runtime_info`.  Note the silent
substitution: a uvx runtime that is not installed is downgraded to npx
rather than reported unavailable. -/
def getRuntimeInfo (pi : PlatformInfo) (runCommand : Option String)
    (packageName : Option String) : RuntimeInfo :=
  let defaultDisplay :=
    match packageName with
    | some p => if p.isEmpty then "unknown" else p
    | none => "unknown"
  let base : RuntimeInfo := ⟨RuntimeType.npx, none, defaultDisplay, false⟩
  let r1 :=
    if truthy runCommand then
      match pySplit (optStr runCommand) with
      -- a whitespace-only command makes Python raise IndexError on
      -- split()[-1]; the claims never reach this corner
      | [] => { base with displayName := "unknown" }
      | p0 :: rest =>
        if p0 = "uvx" ∨ p0 = "npx" then
          { base with
              runtimeType := if p0 = "uvx" then .uvx else .npx,
              displayName := (p0 :: rest).getLast?.getD p0 }
        else { base with displayName := (p0 :: rest).getLast?.getD p0 }
    else base
  let r2 :=
    if r1.runtimeType = .uvx then
      if pi.uvAvailable then
        { r1 with runtimePath := pi.uvxPath, available := true }
      else { r1 with runtimeType := .npx }
    else r1
  if r2.runtimeType = .npx then
    if pi.nodeAvailable then
      { r2 with runtimePath := pi.npxPath, available := true }
    else r2
  else r2

/-- Model of `SimpleMCPDeployer._build_runtime_command`. -/
def buildRuntimeCommand (ri : RuntimeInfo) (runCommand : Option String)
    (packageName : Option String) : List String :=
  let rp := optStr ri.runtimePath
  if truthy runCommand then
    let processed := pyReplace (optStr runCommand) "[transport]" "stdio"
    match pySplit processed with
    -- a whitespace-only command makes Python raise IndexError on
    -- cmd_parts[0]; the claims never reach this corner
    | [] => [rp]
    | p0 :: rest =>
      if p0 = "npx" ∨ p0 = "uvx" then rp :: rest
      else
        if ri.runtimeType = .npx then rp :: "-y" :: p0 :: rest
        else rp :: p0 :: rest
  else
    if ri.runtimeType = .npx then [rp, "-y", optStr packageName]
    else [rp, optStr packageName]

/-- Outcome of one spawn attempt, as observed by `_try_start_process`:
whether the process had already exited when polled after the two-second
grace period, and the stderr captured in that case. -/
structure SpawnOutcome where
  exitedDuringGrace : Bool
  stderrText : String
deriving DecidableEq

/-- A process handle as returned by `_try_start_process`: the argv it was
spawned with and whether it had already exited at the time the handle was
returned. -/
structure Proc where
  argv : List String
  exitedAtReturn : Bool
deriving DecidableEq

/-- The argument-incompatibility phrases checked against stderr. -/
def errorIndicators : List String :=
  ["unknown option \x27--stdio\x27", "too many arguments",
    "Expected 0 arguments but got", "unexpected argument"]

def matchesIndicator (err : String) : Bool :=
  errorIndicators.any (fun ind => containsSub ind.toList err.toList)

/-- The minimal fallback argv rebuilt inside `_try_start_process`. -/
def fallbackCmd (ri : RuntimeInfo) (packageName : Option String) :
    List String :=
  if ri.runtimeType = .npx then [optStr ri.runtimePath, "-y", optStr packageName]
  else [optStr ri.runtimePath, optStr packageName]

/-- Model of `SimpleMCPDeployer._try_start_process`.  Returns the process
handle (or `none` when the launch failed) together with the list of argvs
actually spawned, in order.  Note that after the fallback spawn the code
sleeps again but returns the handle without re-polling liveness. -/
def tryStartProcess (spawn : Nat → SpawnOutcome) (cmd : List String)
    (runCommand : Option String) (packageName : Option String)
    (ri : RuntimeInfo) : Option Proc × List (List String) :=
  let o1 := spawn 0
  if o1.exitedDuringGrace then
    if matchesIndicator o1.stderrText && !(truthy runCommand) then
      let fc := fallbackCmd ri packageName
      let o2 := spawn 1
      (some ⟨fc, o2.exitedDuringGrace⟩, [cmd, fc])
    else (none, [cmd])
  else (some ⟨cmd, false⟩, [cmd])

/-- Concrete scenario for the C2 witness: the first spawn exits during the
grace period with an argument-incompatibility message, the second runs. -/
def spawnC2w : Nat → SpawnOutcome := fun n =>
  if n = 0 then ⟨true, "error: unexpected argument \x27--stdio\x27"⟩
  else ⟨false, ""⟩

def piC2w : PlatformInfo := ⟨true, some "/usr/bin/npx", false, none⟩

/-- Failing scenario for C9: both spawn attempts exit during the grace
period with an argument-incompatibility message. -/
def spawnC9 : Nat → SpawnOutcome :=
  fun _ => ⟨true, "error: unexpected argument \x27--stdio\x27"⟩

def piC9 : PlatformInfo := ⟨true, some "/usr/bin/npx", false, none⟩

/-! ### JSON values, the communicator, and the protocol handshake

Model of `SimpleMCPCommunicator.send_request` / `send_notification` and of
`SimpleMCPDeployer._initialize_mcp_protocol`
(`src/core/simple_mcp_deployer.py`, lines 125-170 and 513-573). -/

/-- Structured JSON values (the result of Python `json.loads`). -/
inductive JVal where
  | jnull
  | jbool (b : Bool)
  | jnum (n : Int)
  | jstr (s : String)
  | jarr (elems : List JVal)
  | jobj (fields : List (String × JVal))

/-- First-match association lookup, as in a Python dict built by
`json.loads` (keys unique). -/
def jLookup : List (String × JVal) → String → Option JVal
  | [], _ => none
  | (k, v) :: rest, key => if k = key then some v else jLookup rest key

/-- A JSON-RPC message as built by `_initialize_mcp_protocol`. -/
structure Rpc where
  jsonrpc : String
  id : Option Nat
  method : String
  params : Option JVal

/-- The full `initialize` request (protocol version, empty capabilities,
client identity). -/
def initRequest : Rpc :=
  ⟨"2.0", some 1, "initialize",
    some (.jobj [("protocolVersion", .jstr "2024-11-05"),
      ("capabilities", .jobj []),
      ("clientInfo", .jobj [("name", .jstr "simple-mcp-client"),
        ("version", .jstr "1.0.0")])])⟩

/-- The reduced retry request: params hold only the protocol version. -/
def simpleInitRequest : Rpc :=
  ⟨"2.0", some 1, "initialize",
    some (.jobj [("protocolVersion", .jstr "2024-11-05")])⟩

/-- The `notifications/initialized` notification (no id, no params). -/
def initNotice : Rpc := ⟨"2.0", none, "notifications/initialized", none⟩

/-- The `tools/list` request (no params). -/
def toolsRequest : Rpc := ⟨"2.0", some 2, "tools/list", none⟩

/-- Result of one `send_request` call, as seen by the handshake: the dict
`{success, data, raw}` on success (data is the decoded JSON, or the raw
text when decoding failed) or `{success: False, error}`. -/
inductive ReqResult where
  | ok (data : JVal) (raw : String)
  | fail (err : String)

/-- The initialized notification plus the `tools/list` stage of the
handshake (steps 2 and 3), shared by the retry and no-retry paths. -/
def initMcpToolsStage (respond : Nat → ReqResult) (idx : Nat)
    (sent : List Rpc) : Except String JVal × List Rpc :=
  let sent2 := sent ++ [initNotice, toolsRequest]
  match respond idx with
  | .fail _ => (.error "获取工具列表失败", sent2)
  | .ok data _ =>
    match data with
    | .jobj fields =>
      match jLookup fields "result" with
      | some (.jobj rfields) =>
        (.ok ((jLookup rfields "tools").getD (.jarr [])), sent2)
      | some _ =>
        (.error "AttributeError: result value has no attribute get", sent2)
      | none => (.error "获取工具列表失败", sent2)
    | _ => (.error "获取工具列表失败", sent2)

/-- Model of `SimpleMCPDeployer._initialize_mcp_protocol` over an oracle
`respond` giving the result of the n-th `send_request` call.  Returns the
handshake outcome (the decoded tools value, or the raised exception
message) together with the JSON-RPC messages sent, in order. -/
def initMcpProtocol (respond : Nat → ReqResult) :
    Except String JVal × List Rpc :=
  match respond 0 with
  | .fail _ =>
    match respond 1 with
    | .fail e2 =>
      (.error ("MCP初始化失败: " ++ e2), [initRequest, simpleInitRequest])
    | .ok _ _ => initMcpToolsStage respond 2 [initRequest, simpleInitRequest]
  | .ok _ _ => initMcpToolsStage respond 1 [initRequest]

/-! ### Communicator state, session registry, deploy and cleanup

Model of `SimpleMCPCommunicator.send_request` state effects, of
`SimpleMCPDeployer.deploy_package` and of `SimpleMCPDeployer.cleanup_server`
(`src/core/simple_mcp_deployer.py`, lines 138-170, 412-511 and 575-592). -/

/-- Observable state of one communicator: whether (and with which return
code) the child process has exited, and the frames sitting in the response
queue. -/
structure CommState where
  procExited : Option Int
  queueFrames : List String
deriving DecidableEq

/-- The four return shapes of `send_request`: success with decoded JSON,
success with raw text (decode failure tolerated), process-already-exited
failure, and timeout failure.  All are returned values, never exceptions. -/
inductive SendResult where
  | okJson (data : JVal) (raw : String)
  | okRaw (raw : String)
  | errTerminated (code : Int)
  | errTimeout

/-- Model of `SimpleMCPCommunicator.send_request`: `parse` models
`json.loads` (`none` = decode error), `arrival` is the frame dequeued
within the timeout after the stale-queue drain, `none` meaning timeout.
The process is polled first, the stale queue is drained, the frame is
written, then the call blocks on the queue. -/
def sendRequest (st : CommState) (parse : String → Option JVal)
    (arrival : Option String) : SendResult × CommState :=
  match st.procExited with
  | some code => (.errTerminated code, st)
  | none =>
    let st1 : CommState := { st with queueFrames := [] }
    match arrival with
    | some text =>
      match parse text with
      | some j => (.okJson j text, st1)
      | none => (.okRaw text, st1)
    | none => (.errTimeout, st1)

/-- A registered session: the tuple stored in `active_servers`. -/
structure ServerInfo where
  packageName : Option String
  serverId : String
  comm : CommState
  tools : JVal
  status : String

/-- Deployer state: the session registry `active_servers`. -/
structure DeployerState where
  activeServers : List (String × ServerInfo)

/-- Update the communicator state of the session registered under `sid`. -/
def updateServer (l : List (String × ServerInfo)) (sid : String)
    (newComm : CommState) : List (String × ServerInfo) :=
  l.map (fun kv => if kv.1 = sid then (kv.1, { kv.2 with comm := newComm }) else kv)

/-- A `send_request` issued through the registry on session `sid`: looks
the session up and runs `sendRequest` on its communicator; the registry
map itself is never touched by `send_request`. -/
def worldSendRequest (ds : DeployerState) (sid : String)
    (parse : String → Option JVal) (arrival : Option String) :
    Option SendResult × DeployerState :=
  match ds.activeServers.lookup sid with
  | none => (none, ds)
  | some info =>
    let r := sendRequest info.comm parse arrival
    (some r.1, ⟨updateServer ds.activeServers sid r.2⟩)

/-- Remove the entry registered under `sid` (Python `del` on a dict with
unique keys removes exactly that entry). -/
def eraseServer (l : List (String × ServerInfo)) (sid : String) :
    List (String × ServerInfo) :=
  l.eraseP (fun kv => kv.1 == sid)

/-- Model of `SimpleMCPDeployer.cleanup_server`: absent ids return false
with no change; present ids are terminated (best effort: exceptions from
`terminate`/`wait` are swallowed, `gracefulOk` records whether the bounded
wait succeeded), removed from the registry, and reported true. -/
def cleanupServer (ds : DeployerState) (sid : String) (gracefulOk : Bool) :
    Bool × DeployerState :=
  match ds.activeServers.lookup sid with
  | none => (false, ds)
  | some _ => (true, ⟨eraseServer ds.activeServers sid⟩)

/-- Model of `SimpleMCPDeployer.deploy_package`: guard, GitHub-URL runtime
synthesis, runtime resolution, availability check, argv build, spawn with
fallback, handshake, and registration.  Every failure path returns `none`
and leaves the registry untouched (the caught exception path). -/
def deployPackage (pi : PlatformInfo) (ds : DeployerState)
    (packageName runCommand githubUrl : Option String)
    (spawn : Nat → SpawnOutcome) (respond : Nat → ReqResult)
    (freshId : String) : Option ServerInfo × DeployerState :=
  if !(truthy packageName) && !(truthy runCommand) then (none, ds)
  else
    let runCommand1 :=
      if truthy githubUrl && !(truthy runCommand) then
        let url := optStr githubUrl
        if detectSimplePlatformUrl url = .uvx &&
            containsSub "/uv-".toList url.toList then
          if truthy packageName then some ("uvx " ++ optStr packageName)
          else some ("uvx --from git+" ++ url ++ " mcp-server")
        else if detectSimplePlatformUrl url = .npx then
          if truthy packageName then some ("npx -y " ++ optStr packageName)
          else none
        else runCommand
      else runCommand
    let ri := getRuntimeInfo pi runCommand1 packageName
    if ri.available then
      let cmd := buildRuntimeCommand ri runCommand1 packageName
      match (tryStartProcess spawn cmd runCommand1 packageName ri).1 with
      | none => (none, ds)
      | some _ =>
        match (initMcpProtocol respond).1 with
        | .error _ => (none, ds)
        | .ok tools =>
          let info : ServerInfo :=
            ⟨packageName, freshId, ⟨none, []⟩, tools, "running"⟩
          (some info, ⟨(freshId, info) :: ds.activeServers⟩)
    else (none, ds)

/-- Oracle where both initialize attempts fail. -/
def respondC3w : Nat → ReqResult := fun _ => .fail "no reply"

/-- Oracle where initialize succeeds and the tools/list response decodes to
an object whose `result` object has no `tools` key. -/
def respondC4cx : Nat → ReqResult := fun n =>
  if n = 0 then .ok .jnull "ok" else .ok (.jobj [("result", .jobj [])]) "t"

/-- Oracle for the C4 witness: initialize succeeds and tools/list returns a
result object carrying one tool. -/
def respondC4w : Nat → ReqResult := fun n =>
  if n = 0 then .ok .jnull ""
  else .ok (.jobj [("result", .jobj [("tools", .jarr [.jstr "echo"])])]) "raw"

/-- Registry with one running session, for the C5 witness. -/
def dsC5w : DeployerState :=
  ⟨[("s1", ⟨some "pkg", "s1", ⟨none, ["stale"]⟩, .jarr [], "running"⟩)]⟩

def spawnC6w : Nat → SpawnOutcome := fun _ => ⟨false, ""⟩

def respondC6w : Nat → ReqResult := fun _ => .fail "no frame"

/-- Registry with one session, for the C7 witness. -/
def dsC7w : DeployerState :=
  ⟨[("s1", ⟨some "pkg", "s1", ⟨none, []⟩, .jarr [], "running"⟩)]⟩

/-! ### Theorems -/

theorem utf8EncodeChar_len1 {n : Nat} (h : n < 0x80) :
    (utf8EncodeChar n).length = 1 := by
  unfold utf8EncodeChar
  split_ifs <;> simp only [List.length_cons, List.length_nil] <;> omega

theorem utf8EncodeChar_len2 {n : Nat} (h1 : 0x80 ≤ n) (h2 : n < 0x800) :
    (utf8EncodeChar n).length = 2 := by
  unfold utf8EncodeChar
  split_ifs <;> simp only [List.length_cons, List.length_nil] <;> omega

theorem utf8EncodeChar_len3 {n : Nat} (h1 : 0x800 ≤ n) (h2 : n < 0x10000) :
    (utf8EncodeChar n).length = 3 := by
  unfold utf8EncodeChar
  split_ifs <;> simp only [List.length_cons, List.length_nil] <;> omega

theorem utf8EncodeChar_len4 {n : Nat} (h1 : 0x10000 ≤ n) :
    (utf8EncodeChar n).length = 4 := by
  unfold utf8EncodeChar
  split_ifs <;> simp only [List.length_cons, List.length_nil] <;> omega

theorem utf8Step_length (b : Nat) (l : List Nat) :
    (utf8Step b l).2.length ≤ l.length := by
  rcases l with _ | ⟨c1, _ | ⟨c2, _ | ⟨c3, l4⟩⟩⟩ <;>
    simp only [utf8Step] <;> split_ifs <;> (try simp) <;> (try omega)

/-- Bytes consumed by one decode step bound the UTF-8 length of the emitted
codepoint: re-encoding the output never exceeds the consumed input. -/
theorem utf8Step_encode_le (b : Nat) (l : List Nat) :
    encLenOpt (utf8Step b l).1 + (utf8Step b l).2.length ≤ l.length + 1 := by
  rcases l with _ | ⟨c1, _ | ⟨c2, _ | ⟨c3, l4⟩⟩⟩ <;>
    simp only [utf8Step] <;> split_ifs <;>
    (try simp only [isCont, validSecond3, validSecond4] at *) <;>
    (try simp [encLenOpt, utf8EncodeChar]) <;>
    (try split_ifs) <;>
    (try simp) <;> omega

theorem utf8DecodeIgnoreF_nil (f : Nat) : utf8DecodeIgnoreF f [] = [] := by
  cases f <;> rfl

theorem utf8DecodeIgnoreF_fuel :
    ∀ f1 f2 l, l.length ≤ f1 → l.length ≤ f2 →
      utf8DecodeIgnoreF f1 l = utf8DecodeIgnoreF f2 l := by
  intro f1
  induction f1 with
  | zero =>
    intro f2 l h1 _
    have : l = [] := List.length_eq_zero.mp (Nat.le_zero.mp h1)
    subst this
    rw [utf8DecodeIgnoreF_nil, utf8DecodeIgnoreF_nil]
  | succ f ih =>
    intro f2 l h1 h2
    cases l with
    | nil => rw [utf8DecodeIgnoreF_nil, utf8DecodeIgnoreF_nil]
    | cons b l =>
      cases f2 with
      | zero => simp at h2
      | succ f2 =>
        have hs := utf8Step_length b l
        rcases hstep : utf8Step b l with ⟨c?, l2⟩
        rw [hstep] at hs
        simp only [] at hs
        have hl2 : l2.length ≤ f := by simp at h1; omega
        have hl2b : l2.length ≤ f2 := by simp at h2; omega
        cases c? <;>
          simp only [utf8DecodeIgnoreF, hstep] <;>
          rw [ih f2 l2 hl2 hl2b]

theorem utf8Encode_nil : utf8Encode [] = [] := rfl

theorem utf8Encode_cons (c : Nat) (s : List Nat) :
    utf8Encode (c :: s) = utf8EncodeChar c ++ utf8Encode s := by
  simp [utf8Encode]

theorem utf8Encode_append (s t : List Nat) :
    utf8Encode (s ++ t) = utf8Encode s ++ utf8Encode t := by
  simp [utf8Encode]

/-- Re-encoding the decoded buffer never exceeds the raw buffer length. -/
theorem utf8Encode_decodeF_le :
    ∀ f l, l.length ≤ f →
      (utf8Encode (utf8DecodeIgnoreF f l)).length ≤ l.length := by
  intro f
  induction f with
  | zero =>
    intro l h
    have : l = [] := List.length_eq_zero.mp (Nat.le_zero.mp h)
    subst this
    simp [utf8DecodeIgnoreF_nil, utf8Encode_nil]
  | succ f ih =>
    intro l h
    cases l with
    | nil => simp [utf8DecodeIgnoreF_nil, utf8Encode_nil]
    | cons b l =>
      have hs := utf8Step_length b l
      have he := utf8Step_encode_le b l
      rcases hstep : utf8Step b l with ⟨c?, l2⟩
      rw [hstep] at hs he
      simp only [] at hs he
      have hl2 : l2.length ≤ f := by simp at h; omega
      have := ih l2 hl2
      cases c? with
      | none =>
        simp only [utf8DecodeIgnoreF, hstep]
        simp only [encLenOpt] at he
        simp
        omega
      | some c =>
        simp only [utf8DecodeIgnoreF, hstep, utf8Encode_cons]
        simp only [encLenOpt] at he
        simp
        omega

theorem utf8Encode_decode_le (l : List Nat) :
    (utf8Encode (utf8DecodeIgnore l)).length ≤ l.length :=
  utf8Encode_decodeF_le l.length l (Nat.le_refl _)

/-- Decoding a newline lead byte always yields the newline codepoint. -/
theorem utf8Step_self10 (l : List Nat) : utf8Step 10 l = (some 10, l) := by
  simp [utf8Step]

/-- A newline byte is never consumed as part of another UTF-8 sequence:
bytes skipped or grouped by a step are never the byte 10. -/
theorem utf8Step_mem10_tail (b : Nat) (l : List Nat) (h : 10 ∈ l) :
    10 ∈ (utf8Step b l).2 := by
  rcases l with _ | ⟨c1, _ | ⟨c2, _ | ⟨c3, l4⟩⟩⟩
  · cases h
  · simp only [utf8Step]
    split_ifs <;>
      (try simp only [isCont, validSecond3, validSecond4] at *) <;>
      simp only [List.mem_cons, List.not_mem_nil, or_false] at h ⊢ <;>
      omega
  · simp only [utf8Step]
    split_ifs <;>
      (try simp only [isCont, validSecond3, validSecond4] at *) <;>
      simp only [List.mem_cons, List.not_mem_nil, or_false] at h ⊢ <;>
      rcases h with h | h <;> (try omega) <;> tauto
  · simp only [utf8Step]
    split_ifs <;>
      (try simp only [isCont, validSecond3, validSecond4] at *) <;>
      simp only [List.mem_cons, List.not_mem_nil, or_false] at h ⊢ <;>
      rcases h with h | h | h | h <;> (try omega) <;>
      (try (exfalso; omega)) <;> tauto

theorem mem10_decodeF :
    ∀ f l, l.length ≤ f → 10 ∈ l → 10 ∈ utf8DecodeIgnoreF f l := by
  intro f
  induction f with
  | zero =>
    intro l h hm
    have : l = [] := List.length_eq_zero.mp (Nat.le_zero.mp h)
    subst this
    simp at hm
  | succ f ih =>
    intro l h hm
    cases l with
    | nil => simp at hm
    | cons b l =>
      by_cases hb : b = 10
      · subst hb
        simp [utf8DecodeIgnoreF, utf8Step_self10]
      · have hml : 10 ∈ l := by
          rcases List.mem_cons.mp hm with h1 | h1
          · exact absurd h1.symm hb
          · exact h1
        have ht := utf8Step_mem10_tail b l hml
        have hs := utf8Step_length b l
        rcases hstep : utf8Step b l with ⟨c?, l2⟩
        rw [hstep] at ht hs
        simp only [] at ht hs
        have hl2 : l2.length ≤ f := by simp at h; omega
        cases c? with
        | none =>
          simp only [utf8DecodeIgnoreF, hstep]
          exact ih l2 hl2 ht
        | some c =>
          simp only [utf8DecodeIgnoreF, hstep, List.mem_cons]
          exact Or.inr (ih l2 hl2 ht)

theorem mem10_decode (l : List Nat) (h : 10 ∈ l) : 10 ∈ utf8DecodeIgnore l :=
  mem10_decodeF l.length l (Nat.le_refl _) h

theorem dropWhile_ne10 :
    ∀ s : List Nat, 10 ∈ s →
      ∃ t, s.dropWhile (fun c => c != 10) = 10 :: t := by
  intro s hm
  induction s with
  | nil => cases hm
  | cons a s ih =>
    by_cases ha : a = 10
    · subst ha
      exact ⟨s, by simp [List.dropWhile]⟩
    · have hm2 : 10 ∈ s := by
        rcases List.mem_cons.mp hm with h | h
        · exact absurd h.symm ha
        · exact h
      obtain ⟨t, ht⟩ := ih hm2
      refine ⟨t, ?_⟩
      rw [List.dropWhile_cons]
      simp only [bne_iff_ne, ne_eq, ha, not_false_eq_true, if_true]
      exact ht

theorem splitFirstNL_eq {s pre post : List Nat}
    (h : splitFirstNL s = some (pre, post)) : s = pre ++ 10 :: post := by
  unfold splitFirstNL at h
  split_ifs at h with hm
  · obtain ⟨t, ht⟩ := dropWhile_ne10 s hm
    injection h with h
    injection h with h1 h2
    subst h1
    have hsplit := List.takeWhile_append_dropWhile (p := fun c => c != 10) (l := s)
    rw [ht] at hsplit
    rw [ht] at h2
    simp at h2
    subst h2
    exact hsplit.symm

theorem splitFirstNL_none {s : List Nat} (h : splitFirstNL s = none) :
    10 ∉ s := by
  unfold splitFirstNL at h
  by_cases hm : 10 ∈ s
  · rw [if_pos hm] at h
    exact Option.noConfusion h
  · exact hm

theorem splitFirstNL_not_mem {s : List Nat} (h : 10 ∉ s) :
    splitFirstNL s = none := by
  unfold splitFirstNL
  rw [if_neg h]

/-- When the decoded buffer contains a newline, the re-encoded remainder is
strictly shorter than the buffer: the extraction loop makes progress. -/
theorem encodePost_lt {buf pre post : List Nat}
    (h : splitFirstNL (utf8DecodeIgnore buf) = some (pre, post)) :
    (utf8Encode post).length < buf.length := by
  have hs := splitFirstNL_eq h
  have h1 := utf8Encode_decode_le buf
  rw [hs, utf8Encode_append, utf8Encode_cons] at h1
  have h10 : utf8EncodeChar 10 = [10] := by simp [utf8EncodeChar]
  rw [h10] at h1
  simp only [List.length_append, List.length_cons] at h1
  omega

theorem tryExtractF_nil (f : Nat) : tryExtractF f [] = (none, []) := by
  cases f <;> rfl

theorem tryExtractF_fuel_irrel :
    ∀ f1 f2 buf, buf.length ≤ f1 → buf.length ≤ f2 →
      tryExtractF f1 buf = tryExtractF f2 buf := by
  intro f1
  induction f1 with
  | zero =>
    intro f2 buf h1 _
    have : buf = [] := List.length_eq_zero.mp (Nat.le_zero.mp h1)
    subst this
    rw [tryExtractF_nil, tryExtractF_nil]
  | succ f ih =>
    intro f2 buf h1 h2
    cases buf with
    | nil => rw [tryExtractF_nil, tryExtractF_nil]
    | cons b l =>
      cases f2 with
      | zero => simp at h2
      | succ f2 =>
        rcases hsp : splitFirstNL (utf8DecodeIgnore (b :: l)) with _ | ⟨pre, post⟩
        · simp only [tryExtractF, hsp]
        · have hlt := encodePost_lt hsp
          simp only [tryExtractF, hsp]
          split_ifs
          · rfl
          · rfl
          · exact ih f2 (utf8Encode post)
              (by simp only [List.length_cons] at h1 hlt ⊢; omega)
              (by simp only [List.length_cons] at h2 hlt ⊢; omega)

theorem tryExtractF_some_lt :
    ∀ f buf m b2, buf.length ≤ f → tryExtractF f buf = (some m, b2) →
      b2.length < buf.length := by
  intro f
  induction f with
  | zero =>
    intro buf m b2 h1 he
    simp [tryExtractF] at he
  | succ f ih =>
    intro buf m b2 h1 he
    rcases hsp : splitFirstNL (utf8DecodeIgnore buf) with _ | ⟨pre, post⟩
    · simp only [tryExtractF, hsp] at he
      simp at he
    · have hlt := encodePost_lt hsp
      simp only [tryExtractF, hsp] at he
      split_ifs at he with hn hp
      · injection he with he1 he2
        subst he2
        exact hlt
      · cases he
      · have := ih (utf8Encode post) m b2 (by omega) he
        omega

/-- The buffer left behind by a `none` result decodes without a newline, or
is empty: no complete line remains unconsumed. -/
theorem tryExtractF_none_char :
    ∀ f buf b2, buf.length ≤ f → tryExtractF f buf = (none, b2) →
      10 ∉ utf8DecodeIgnore b2 ∨ b2 = [] := by
  intro f
  induction f with
  | zero =>
    intro buf b2 h1 he
    have : buf = [] := List.length_eq_zero.mp (Nat.le_zero.mp h1)
    subst this
    rw [tryExtractF_nil] at he
    injection he with _ he2
    right
    exact he2.symm
  | succ f ih =>
    intro buf b2 h1 he
    rcases hsp : splitFirstNL (utf8DecodeIgnore buf) with _ | ⟨pre, post⟩
    · simp only [tryExtractF, hsp] at he
      injection he with _ he2
      subst he2
      left
      exact splitFirstNL_none hsp
    · have hlt := encodePost_lt hsp
      simp only [tryExtractF, hsp] at he
      split_ifs at he with hn hp
      · cases he
      · injection he with _ he2
        subst he2
        right
        rw [List.isEmpty_iff] at hp
        subst hp
        rfl
      · exact ih (utf8Encode post) b2 (by omega) he

/-- Re-running the extractor on a drained buffer returns `none` and leaves
the buffer unchanged. -/
theorem tryExtract_of_no10 {b2 : List Nat} (h : 10 ∉ utf8DecodeIgnore b2) :
    tryExtractMessage b2 = (none, b2) := by
  cases b2 with
  | nil => rfl
  | cons b l =>
    unfold tryExtractMessage
    have hsp := splitFirstNL_not_mem h
    simp only [List.length_cons, tryExtractF, hsp]

theorem tryExtractMessage_nil : tryExtractMessage [] = (none, []) := rfl

theorem drainF_nil (f : Nat) : drainF f [] = ([], []) := by
  cases f <;> rfl

theorem drainF_fuel_irrel :
    ∀ f1 f2 buf, buf.length ≤ f1 → buf.length ≤ f2 →
      drainF f1 buf = drainF f2 buf := by
  intro f1
  induction f1 with
  | zero =>
    intro f2 buf h1 _
    have : buf = [] := List.length_eq_zero.mp (Nat.le_zero.mp h1)
    subst this
    rw [drainF_nil, drainF_nil]
  | succ f ih =>
    intro f2 buf h1 h2
    cases buf with
    | nil => rw [drainF_nil, drainF_nil]
    | cons b l =>
      cases f2 with
      | zero => simp at h2
      | succ f2 =>
        rcases hte : tryExtractMessage (b :: l) with ⟨_ | m, b2⟩
        · simp only [drainF, hte]
        · have hlt := tryExtractF_some_lt (b :: l).length (b :: l) m b2
            (Nat.le_refl _) hte
          simp only [drainF, hte]
          rw [ih f2 b2 (by simp only [List.length_cons] at hlt h1 ⊢; omega)
            (by simp only [List.length_cons] at hlt h2 ⊢; omega)]

/-- The drain loop runs to exhaustion: on the final buffer the extractor
reports no further message and leaves the buffer unchanged. -/
theorem drainF_rest :
    ∀ f buf, buf.length ≤ f →
      tryExtractMessage (drainF f buf).2 = (none, (drainF f buf).2) := by
  intro f
  induction f with
  | zero =>
    intro buf h1
    have : buf = [] := List.length_eq_zero.mp (Nat.le_zero.mp h1)
    subst this
    rw [drainF_nil]
    rfl
  | succ f ih =>
    intro buf h1
    rcases hte : tryExtractMessage buf with ⟨_ | m, b2⟩
    · simp only [drainF, hte]
      rcases tryExtractF_none_char buf.length buf b2 (Nat.le_refl _) hte with
        hc | hc
      · exact tryExtract_of_no10 hc
      · subst hc
        rfl
    · have hlt := tryExtractF_some_lt buf.length buf m b2 (Nat.le_refl _) hte
      simp only [drainF, hte]
      exact ih b2 (by omega)

/-- After a drain to exhaustion, no newline byte remains in the buffer. -/
theorem drainBuffer_no10 (buf : List Nat) : 10 ∉ (drainBuffer buf).2 := by
  have hrest := drainF_rest buf.length buf (Nat.le_refl _)
  rcases tryExtractF_none_char (drainF buf.length buf).2.length
      (drainF buf.length buf).2 (drainF buf.length buf).2 (Nat.le_refl _)
      hrest with hc | hc
  · intro hmem
    exact hc (mem10_decode _ hmem)
  · rw [drainBuffer, hc]
    simp

theorem append_eq_cons1 {a1 : Nat} {c rest : List Nat}
    (h : c ++ rest = [a1]) :
    (c = [] ∧ rest = [a1]) ∨ (c = [a1] ∧ rest = []) := by
  rcases c with _ | ⟨x1, c2⟩ <;> simp_all

theorem append_eq_cons2 {a1 a2 : Nat} {c rest : List Nat}
    (h : c ++ rest = [a1, a2]) :
    (c = [] ∧ rest = [a1, a2]) ∨ (c = [a1] ∧ rest = [a2]) ∨
      (c = [a1, a2] ∧ rest = []) := by
  rcases c with _ | ⟨x1, _ | ⟨x2, c3⟩⟩ <;> simp_all

theorem append_eq_cons3 {a1 a2 a3 : Nat} {c rest : List Nat}
    (h : c ++ rest = [a1, a2, a3]) :
    (c = [] ∧ rest = [a1, a2, a3]) ∨ (c = [a1] ∧ rest = [a2, a3]) ∨
      (c = [a1, a2] ∧ rest = [a3]) ∨ (c = [a1, a2, a3] ∧ rest = []) := by
  rcases c with _ | ⟨x1, _ | ⟨x2, _ | ⟨x3, c4⟩⟩⟩ <;> simp_all

theorem append_eq_cons4 {a1 a2 a3 a4 : Nat} {c rest : List Nat}
    (h : c ++ rest = [a1, a2, a3, a4]) :
    (c = [] ∧ rest = [a1, a2, a3, a4]) ∨ (c = [a1] ∧ rest = [a2, a3, a4]) ∨
      (c = [a1, a2] ∧ rest = [a3, a4]) ∨ (c = [a1, a2, a3] ∧ rest = [a4]) ∨
      (c = [a1, a2, a3, a4] ∧ rest = []) := by
  rcases c with _ | ⟨x1, _ | ⟨x2, _ | ⟨x3, _ | ⟨x4, c5⟩⟩⟩⟩ <;> simp_all

theorem c1Good_step (st : DecoderState) (c rest : List Nat)
    (h : c1Good st (c ++ rest)) : c1Good (feedChunk st c) rest := by
  rcases h with ⟨h1, h2⟩ | ⟨h1, h2⟩ | ⟨h1, h2⟩ | ⟨h1, h2⟩ | ⟨h1, h2⟩ <;>
    subst h1
  · rcases append_eq_cons4 h2 with ⟨rfl, rfl⟩ | ⟨rfl, rfl⟩ | ⟨rfl, rfl⟩ |
      ⟨rfl, rfl⟩ | ⟨rfl, rfl⟩ <;> decide
  · rcases append_eq_cons3 h2 with ⟨rfl, rfl⟩ | ⟨rfl, rfl⟩ | ⟨rfl, rfl⟩ |
      ⟨rfl, rfl⟩ <;> decide
  · rcases append_eq_cons2 h2 with ⟨rfl, rfl⟩ | ⟨rfl, rfl⟩ |
      ⟨rfl, rfl⟩ <;> decide
  · rcases append_eq_cons1 h2 with ⟨rfl, rfl⟩ | ⟨rfl, rfl⟩ <;> decide
  · rw [List.append_eq_nil] at h2
    obtain ⟨rfl, rfl⟩ := h2
    decide

theorem c1_aux :
    ∀ (chunks : List (List Nat)) (st : DecoderState) (rest : List Nat),
      c1Good st rest → chunks.flatten = rest →
      c1Good (chunks.foldl feedChunk st) [] := by
  intro chunks
  induction chunks with
  | nil =>
    intro st rest h hflat
    simp only [List.flatten_nil] at hflat
    subst hflat
    exact h
  | cons c cs ih =>
    intro st rest h hflat
    subst hflat
    simp only [List.flatten_cons] at h
    exact ih (feedChunk st c) cs.flatten (c1Good_step st c cs.flatten h) rfl

/-- C1: frame reconstruction is invariant to chunk boundaries.  For every
split of the byte string `A NL B NL` (bytes `[65, 10, 66, 10]`) into
chunks, feeding the chunks in order to the decoder and draining after each
append yields exactly the messages `A` then `B` and an empty buffer. -/
theorem frame_reconstruction_chunk_invariant (chunks : List (List Nat))
    (h : chunks.flatten = [65, 10, 66, 10]) :
    (feedChunks chunks).messages = [[65], [66]] ∧
      (feedChunks chunks).buffer = [] := by
  have hg := c1_aux chunks ⟨[], []⟩ [65, 10, 66, 10] (by decide) h
  rcases hg with ⟨h1, h2⟩ | ⟨h1, h2⟩ | ⟨h1, h2⟩ | ⟨h1, h2⟩ | ⟨h1, h2⟩
  · exact absurd h2 (by decide)
  · exact absurd h2 (by decide)
  · exact absurd h2 (by decide)
  · exact absurd h2 (by decide)
  · show (chunks.foldl feedChunk ⟨[], []⟩).messages = _ ∧
      (chunks.foldl feedChunk ⟨[], []⟩).buffer = _
    rw [h1]
    exact ⟨rfl, rfl⟩

/-- Witness for C1 at the concrete split `[A] [NL B] [NL]`. -/
theorem frame_reconstruction_chunk_invariant_witness :
    ([[65], [10, 66], [10]] : List (List Nat)).flatten = [65, 10, 66, 10] ∧
      (feedChunks [[65], [10, 66], [10]]).messages = [[65], [66]] :=
  ⟨by decide, (frame_reconstruction_chunk_invariant [[65], [10, 66], [10]]
    (by decide)).1⟩

/-- C8: frame-buffer invariant.  After any append of reader bytes followed
by the extraction loop running to exhaustion, the buffer holds no newline
byte (so no complete newline-terminated message, empty lines included,
remains unconsumed) and the extractor reports nothing further. -/
theorem frame_buffer_rest_invariant (st : DecoderState) (chunk : List Nat) :
    10 ∉ (feedChunk st chunk).buffer ∧
      tryExtractMessage (feedChunk st chunk).buffer =
        (none, (feedChunk st chunk).buffer) :=
  ⟨drainBuffer_no10 (st.buffer ++ chunk),
    drainF_rest (st.buffer ++ chunk).length (st.buffer ++ chunk)
      (Nat.le_refl _)⟩

/-- With no usable run command, `_get_runtime_info` keeps the default npx
runtime and resolves it from the platform snapshot. -/
theorem getRuntimeInfo_no_cmd (pi : PlatformInfo)
    (runCommand packageName : Option String) (h : truthy runCommand = false) :
    (getRuntimeInfo pi runCommand packageName).runtimeType = .npx ∧
    (pi.nodeAvailable = true →
      (getRuntimeInfo pi runCommand packageName).runtimePath = pi.npxPath ∧
      (getRuntimeInfo pi runCommand packageName).available = true) := by
  unfold getRuntimeInfo
  simp only [h, Bool.false_eq_true, if_false]
  split_ifs <;> simp_all

/-- C2: fallback gating and spawn count.  With an explicit run command
exactly one spawn attempt is made, even on an argument-incompatibility
exit; with no run command and a matching early exit, exactly one extra
spawn with the minimal npx argv is made; never more than two attempts. -/
theorem fallback_gating_spawn_count (spawn : Nat → SpawnOutcome)
    (cmd : List String) (runCommand packageName : Option String)
    (pi : PlatformInfo) (path p : String) :
    (truthy runCommand = true →
      (tryStartProcess spawn cmd runCommand packageName
        (getRuntimeInfo pi runCommand packageName)).2.length = 1) ∧
    (truthy runCommand = false → (spawn 0).exitedDuringGrace = true →
      matchesIndicator (spawn 0).stderrText = true →
      pi.nodeAvailable = true → pi.npxPath = some path →
      packageName = some p →
      (tryStartProcess spawn cmd runCommand packageName
        (getRuntimeInfo pi runCommand packageName)).2 =
        [cmd, [path, "-y", p]]) ∧
    (tryStartProcess spawn cmd runCommand packageName
      (getRuntimeInfo pi runCommand packageName)).2.length ≤ 2 := by
  refine ⟨?_, ?_, ?_⟩
  · intro ht
    simp only [tryStartProcess]
    split_ifs with h1 h2
    · rw [ht] at h2
      simp at h2
    · rfl
    · rfl
  · intro ht hexit hmatch hnode hpath hpkg
    subst hpkg
    obtain ⟨hty, hres⟩ := getRuntimeInfo_no_cmd pi runCommand (some p) ht
    obtain ⟨hrp, _⟩ := hres hnode
    simp only [tryStartProcess, hexit, ht, hmatch, Bool.not_false,
      Bool.and_true, if_true]
    simp [fallbackCmd, hty, hrp, hpath, optStr]
  · simp only [tryStartProcess]
    split_ifs <;> simp

/-- Witness for C2: two spawn attempts, the second with the minimal argv. -/
theorem fallback_gating_spawn_count_witness :
    (tryStartProcess spawnC2w ["/usr/bin/npx", "-y", "mypkg"] none
      (some "mypkg") (getRuntimeInfo piC2w none (some "mypkg"))).2 =
      [["/usr/bin/npx", "-y", "mypkg"], ["/usr/bin/npx", "-y", "mypkg"]] :=
  (fallback_gating_spawn_count spawnC2w ["/usr/bin/npx", "-y", "mypkg"] none
    (some "mypkg") piC2w "/usr/bin/npx" "mypkg").2.1 (by decide) (by decide)
    (by decide) (by decide) (by decide) (by decide)

/-- C9, evaluated at the failing input: the fallback re-spawn also exits
during the grace period, yet `_try_start_process` returns a process handle
(the fallback process, already exited) instead of a failure outcome: the
handle is returned without re-polling liveness after the second sleep. -/
theorem fallback_failure_returns_dead_handle :
    (tryStartProcess spawnC9
        (buildRuntimeCommand (getRuntimeInfo piC9 none (some "mypkg")) none
          (some "mypkg"))
        none (some "mypkg") (getRuntimeInfo piC9 none (some "mypkg"))).1 =
      some ⟨["/usr/bin/npx", "-y", "mypkg"], true⟩ := by decide

/-- C10: silent runtime substitution.  A run command selecting uvx while
uvx is not installed does not produce a runtime-unavailable failure: the
runtime type is silently switched to npx and, with npx installed, the
resolved runtime is available and the argv is built under the npx path. -/
theorem silent_uvx_to_npx_substitution (pi : PlatformInfo) (rc : String)
    (packageName : Option String) (path : String)
    (h1 : pi.uvAvailable = false) (h2 : pi.nodeAvailable = true)
    (h3 : pi.npxPath = some path)
    (h4 : (pySplit rc).head? = some "uvx")
    (h5 : (pySplit (pyReplace rc "[transport]" "stdio")).head? = some "uvx") :
    (getRuntimeInfo pi (some rc) packageName).runtimeType = .npx ∧
    (getRuntimeInfo pi (some rc) packageName).available = true ∧
    (getRuntimeInfo pi (some rc) packageName).runtimePath = some path ∧
    (buildRuntimeCommand (getRuntimeInfo pi (some rc) packageName) (some rc)
      packageName).head? = some path := by
  have htr : truthy (some rc) = true := by
    by_cases hrc : rc = ""
    · subst hrc
      simp [pySplit, pySplitAux] at h4
    · simp only [truthy, Bool.not_eq_true]
      cases hb : rc.isEmpty
      · rfl
      · exact absurd ((String.isEmpty_iff rc).mp hb) hrc
  rcases hsp : pySplit rc with _ | ⟨p0, rest⟩
  · rw [hsp] at h4
    simp at h4
  · rw [hsp] at h4
    simp only [List.head?_cons, Option.some.injEq] at h4
    subst h4
    have hri : getRuntimeInfo pi (some rc) packageName =
        { runtimeType := .npx, runtimePath := pi.npxPath,
          displayName := ("uvx" :: rest).getLast?.getD "uvx",
          available := true } := by
      unfold getRuntimeInfo
      simp only [htr, if_true, optStr, hsp]
      simp [h1, h2]
    refine ⟨by rw [hri], by rw [hri], by rw [hri, h3], ?_⟩
    unfold buildRuntimeCommand
    simp only [htr, if_true, optStr]
    rcases hsp2 : pySplit (pyReplace rc "[transport]" "stdio") with
      _ | ⟨q0, qrest⟩
    · rw [hsp2] at h5
      simp at h5
    · rw [hsp2] at h5
      simp only [List.head?_cons, Option.some.injEq] at h5
      subst h5
      simp [hri, h3, optStr]

/-- Witness for C10 at a concrete platform and run command. -/
theorem silent_uvx_to_npx_substitution_witness :
    (getRuntimeInfo ⟨true, some "/n/npx", false, none⟩
      (some "uvx excel-mcp-server stdio") none).runtimeType = .npx ∧
    (getRuntimeInfo ⟨true, some "/n/npx", false, none⟩
      (some "uvx excel-mcp-server stdio") none).available = true ∧
    (getRuntimeInfo ⟨true, some "/n/npx", false, none⟩
      (some "uvx excel-mcp-server stdio") none).runtimePath =
        some "/n/npx" ∧
    (buildRuntimeCommand
      (getRuntimeInfo ⟨true, some "/n/npx", false, none⟩
        (some "uvx excel-mcp-server stdio") none)
      (some "uvx excel-mcp-server stdio") none).head? = some "/n/npx" :=
  silent_uvx_to_npx_substitution ⟨true, some "/n/npx", false, none⟩
    "uvx excel-mcp-server stdio" none "/n/npx" rfl rfl rfl (by decide)
    (by decide)

/-- The messages sent by the notification/tools stage do not depend on the
shape of the tools response. -/
theorem initMcpToolsStage_sent (respond : Nat → ReqResult) (idx : Nat)
    (sent : List Rpc) :
    (initMcpToolsStage respond idx sent).2 =
      sent ++ [initNotice, toolsRequest] := by
  unfold initMcpToolsStage
  rcases respond idx with ⟨d, r⟩ | e
  · rcases d with _ | b | n | str | es | fields
    · rfl
    · rfl
    · rfl
    · rfl
    · rfl
    · rcases hjl : jLookup fields "result" with _ | v
      · simp [hjl]
      · rcases v <;> simp [hjl]
  · rfl

/-- C3: handshake retry policy.  If the first `initialize` request fails,
exactly one retry is sent whose params hold only the protocol version; if
the retry also fails the handshake raises (HandshakeFailure); `tools/list`
is sent at most once, and exactly once whenever an initialize attempt
succeeded. -/
theorem handshake_retry_policy (respond : Nat → ReqResult) :
    simpleInitRequest.params =
      some (.jobj [("protocolVersion", .jstr "2024-11-05")]) ∧
    (∀ e1, respond 0 = .fail e1 →
      (initMcpProtocol respond).2.take 2 = [initRequest, simpleInitRequest]) ∧
    (∀ e1, respond 0 = .fail e1 →
      ((initMcpProtocol respond).2.filter
        (fun q => q.method == "initialize")).length = 2) ∧
    (∀ e1 e2, respond 0 = .fail e1 → respond 1 = .fail e2 →
      ∃ e, (initMcpProtocol respond).1 = .error e) ∧
    ((initMcpProtocol respond).2.filter
      (fun q => q.method == "tools/list")).length ≤ 1 ∧
    ((∃ d w, respond 0 = .ok d w) ∨ (∃ d w, respond 1 = .ok d w) →
      ((initMcpProtocol respond).2.filter
        (fun q => q.method == "tools/list")).length = 1) := by
  rcases h0 : respond 0 with ⟨d0, w0⟩ | e0
  · have hsent : (initMcpProtocol respond).2 =
        [initRequest, initNotice, toolsRequest] := by
      simp only [initMcpProtocol, h0, initMcpToolsStage_sent]
      rfl
    refine ⟨rfl, ?_, ?_, ?_, ?_, ?_⟩
    · intro e hx
      exact ReqResult.noConfusion hx
    · intro e hx
      exact ReqResult.noConfusion hx
    · intro e1x e2x hx _
      exact ReqResult.noConfusion hx
    · rw [hsent]
      decide
    · intro _
      rw [hsent]
      decide
  · rcases h1 : respond 1 with ⟨d1, w1⟩ | e1
    · have hsent : (initMcpProtocol respond).2 =
          [initRequest, simpleInitRequest, initNotice, toolsRequest] := by
        simp only [initMcpProtocol, h0, h1, initMcpToolsStage_sent]
        rfl
      refine ⟨rfl, ?_, ?_, ?_, ?_, ?_⟩
      · intro e hx
        rw [hsent]
        rfl
      · intro e hx
        rw [hsent]
        decide
      · intro e1x e2x _ hy
        exact ReqResult.noConfusion hy
      · rw [hsent]
        decide
      · intro _
        rw [hsent]
        decide
    · have hres : initMcpProtocol respond =
          (.error ("MCP初始化失败: " ++ e1), [initRequest, simpleInitRequest]) := by
        simp only [initMcpProtocol, h0, h1]
      have hsent : (initMcpProtocol respond).2 =
          [initRequest, simpleInitRequest] := by rw [hres]
      refine ⟨rfl, ?_, ?_, ?_, ?_, ?_⟩
      · intro e hx
        rw [hsent]
        rfl
      · intro e hx
        rw [hsent]
        decide
      · intro e1x e2x _ _
        exact ⟨_, by rw [hres]⟩
      · rw [hsent]
        decide
      · intro hex
        rcases hex with ⟨d, w, hx⟩ | ⟨d, w, hx⟩
        · exact ReqResult.noConfusion hx
        · exact ReqResult.noConfusion hx

/-- Witness for C3: with both initialize attempts failing, the retry is the
reduced request and the handshake ends in a failure. -/
theorem handshake_retry_policy_witness :
    (initMcpProtocol respondC3w).2.take 2 = [initRequest, simpleInitRequest] ∧
      ∃ e, (initMcpProtocol respondC3w).1 = .error e :=
  ⟨(handshake_retry_policy respondC3w).2.1 "no reply" rfl,
    (handshake_retry_policy respondC3w).2.2.2.1 "no reply" "no reply" rfl rfl⟩

/-- Counterexample to C4 as stated: a tools/list response whose `result`
object lacks a `tools` array does NOT produce a HandshakeFailure — the
handshake succeeds with the empty tool list, because the code reads
`tools_data[result].get(tools, [])` with an empty-list default. -/
theorem tools_missing_array_still_succeeds :
    (initMcpProtocol respondC4cx).1 = .ok (.jarr []) := rfl

theorem exists_ok_of_error {x : Except String JVal} {e : String}
    (hx : x = .error e) : ¬ ∃ t, x = .ok t := by
  rintro ⟨t, ht⟩
  rw [hx] at ht
  exact Except.noConfusion ht

/-- C4 (amended): with the initialize step succeeded, the handshake returns
a tool value exactly when the tools/list response decodes to an object
whose `result` key maps to an object; that value is the result object's
`tools` entry, defaulting to the empty array when the key is absent.  Every
other shape (send failure or timeout, non-object decode, object without
`result`, non-object `result` value) raises a HandshakeFailure. -/
theorem tools_list_response_shape (respond : Nat → ReqResult)
    (d0 : JVal) (w0 : String) (h0 : respond 0 = .ok d0 w0) :
    ((∃ t, (initMcpProtocol respond).1 = .ok t) ↔
      (∃ fields rfields raw, respond 1 = .ok (.jobj fields) raw ∧
        jLookup fields "result" = some (.jobj rfields))) ∧
    (∀ fields rfields raw, respond 1 = .ok (.jobj fields) raw →
      jLookup fields "result" = some (.jobj rfields) →
      (initMcpProtocol respond).1 =
        .ok ((jLookup rfields "tools").getD (.jarr []))) := by
  have hp : initMcpProtocol respond =
      initMcpToolsStage respond 1 [initRequest] := by
    simp only [initMcpProtocol, h0]
  rcases h1 : respond 1 with ⟨d1, w1⟩ | e1
  · rcases d1 with _ | b | n | str | es | fields
    case jobj =>
      rcases hjl : jLookup fields "result" with _ | v
      · have hr : (initMcpProtocol respond).1 = .error "获取工具列表失败" := by
          rw [hp]
          simp only [initMcpToolsStage, h1, hjl]
        refine ⟨⟨fun hx => absurd hx (exists_ok_of_error hr), ?_⟩, ?_⟩
        · rintro ⟨f, rf, raw, hf, hl⟩
          have he : fields = f := JVal.jobj.inj (ReqResult.ok.inj hf).1
          rw [← he, hjl] at hl
          exact Option.noConfusion hl
        · intro f rf raw hf hl
          have he : fields = f := JVal.jobj.inj (ReqResult.ok.inj hf).1
          rw [← he, hjl] at hl
          exact absurd hl (by simp)
      · rcases v with _ | b | n | str | es | rfields
        case jobj =>
          have hr : (initMcpProtocol respond).1 =
              .ok ((jLookup rfields "tools").getD (.jarr [])) := by
            rw [hp]
            simp only [initMcpToolsStage, h1, hjl]
          refine ⟨⟨fun _ => ⟨fields, rfields, w1, rfl, hjl⟩,
            fun _ => ⟨_, hr⟩⟩, ?_⟩
          intro f rf raw hf hl
          have he : fields = f := JVal.jobj.inj (ReqResult.ok.inj hf).1
          rw [← he, hjl] at hl
          have hrr : rfields = rf := JVal.jobj.inj (Option.some.inj hl)
          rw [← hrr]
          exact hr
        all_goals
          have hr : (initMcpProtocol respond).1 =
              .error "AttributeError: result value has no attribute get" := by
            rw [hp]
            simp only [initMcpToolsStage, h1, hjl]
          refine ⟨⟨fun hx => absurd hx (exists_ok_of_error hr), ?_⟩, ?_⟩
        all_goals
          first
            | intro f rf raw hf hl
            | rintro ⟨f, rf, raw, hf, hl⟩
        all_goals
          have he : fields = f := JVal.jobj.inj (ReqResult.ok.inj hf).1
          rw [← he, hjl] at hl
          exact JVal.noConfusion (Option.some.inj hl)
    all_goals
      have hr : (initMcpProtocol respond).1 = .error "获取工具列表失败" := by
        rw [hp]
        simp only [initMcpToolsStage, h1]
      refine ⟨⟨fun hx => absurd hx (exists_ok_of_error hr), ?_⟩, ?_⟩
    all_goals
      first
        | intro f rf raw hf hl
        | rintro ⟨f, rf, raw, hf, hl⟩
    all_goals exact JVal.noConfusion (ReqResult.ok.inj hf).1
  · have hr : (initMcpProtocol respond).1 = .error "获取工具列表失败" := by
      rw [hp]
      simp only [initMcpToolsStage, h1]
    refine ⟨⟨fun hx => absurd hx (exists_ok_of_error hr), ?_⟩, ?_⟩
    all_goals
      first
        | intro f rf raw hf hl
        | rintro ⟨f, rf, raw, hf, hl⟩
    all_goals exact ReqResult.noConfusion hf

/-- Witness for the amended C4 at a concrete tools/list response. -/
theorem tools_list_response_shape_witness :
    (initMcpProtocol respondC4w).1 = .ok (.jarr [.jstr "echo"]) :=
  (tools_list_response_shape respondC4w .jnull "" rfl).2
    [("result", .jobj [("tools", .jarr [.jstr "echo"])])]
    [("tools", .jarr [.jstr "echo"])] "raw" rfl rfl

theorem updateServer_cons (k : String) (i : ServerInfo)
    (t : List (String × ServerInfo)) (sid : String) (c : CommState) :
    updateServer ((k, i) :: t) sid c =
      (if k = sid then (k, { i with comm := c }) else (k, i)) ::
        updateServer t sid c := rfl

theorem lookup_updateServer (l : List (String × ServerInfo)) (sid : String)
    (c : CommState) :
    (updateServer l sid c).lookup sid =
      (l.lookup sid).map (fun i => { i with comm := c }) := by
  induction l with
  | nil => rfl
  | cons kv t ih =>
    rcases kv with ⟨k, i⟩
    rw [updateServer_cons]
    by_cases hk : k = sid
    · subst hk
      rw [if_pos rfl]
      simp [List.lookup]
    · rw [if_neg hk]
      have hsk : (sid == k) = false := by
        simp only [beq_eq_false_iff_ne, ne_eq]
        exact fun he => hk he.symm
      simp [List.lookup, hsk, ih]

theorem keys_updateServer (l : List (String × ServerInfo)) (sid : String)
    (c : CommState) :
    (updateServer l sid c).map Prod.fst = l.map Prod.fst := by
  induction l with
  | nil => rfl
  | cons kv t ih =>
    rcases kv with ⟨k, i⟩
    rw [updateServer_cons]
    split_ifs <;> simp [ih]

/-- C5: a timed-out `send_request` is a soft failure.  The call returns the
timeout-failure value (not an exception), the child process is not killed
(its exit status is untouched), and the session stays registered with the
same id set; only stale queue entries are discarded. -/
theorem timeout_soft_failure (ds : DeployerState) (sid : String)
    (parse : String → Option JVal) (info : ServerInfo)
    (hlook : ds.activeServers.lookup sid = some info)
    (halive : info.comm.procExited = none) :
    (worldSendRequest ds sid parse none).1 = some .errTimeout ∧
    (worldSendRequest ds sid parse none).2.activeServers.map Prod.fst =
      ds.activeServers.map Prod.fst ∧
    (worldSendRequest ds sid parse none).2.activeServers.lookup sid =
      some { info with comm := { info.comm with queueFrames := [] } } ∧
    ((worldSendRequest ds sid parse none).2.activeServers.lookup sid).map
      (fun i => i.comm.procExited) = some none := by
  have hsr : sendRequest info.comm parse none =
      (.errTimeout, { info.comm with queueFrames := [] }) := by
    simp only [sendRequest, halive]
  simp only [worldSendRequest, hlook, hsr]
  refine ⟨trivial, keys_updateServer _ _ _, ?_, ?_⟩
  · rw [lookup_updateServer, hlook]
    rfl
  · rw [lookup_updateServer, hlook]
    simp [halive]

/-- Witness for C5: a timeout on the registered session returns the soft
failure and the session is still registered with a live process. -/
theorem timeout_soft_failure_witness :
    (worldSendRequest dsC5w "s1" (fun _ => none) none).1 =
      some .errTimeout ∧
    ((worldSendRequest dsC5w "s1" (fun _ => none) none).2.activeServers.lookup
      "s1").map (fun i => i.comm.procExited) = some none :=
  ⟨(timeout_soft_failure dsC5w "s1" (fun _ => none)
      ⟨some "pkg", "s1", ⟨none, ["stale"]⟩, .jarr [], "running"⟩ rfl rfl).1,
    (timeout_soft_failure dsC5w "s1" (fun _ => none)
      ⟨some "pkg", "s1", ⟨none, ["stale"]⟩, .jarr [], "running"⟩ rfl
      rfl).2.2.2⟩

/-- C6: deployment atomicity.  Whenever `deploy_package` returns a failure
outcome (`none`) — empty arguments, unavailable runtime, launch failure, or
handshake failure — the session registry is exactly as before: no partial
session is registered. -/
theorem deploy_failure_leaves_registry_unchanged (pi : PlatformInfo)
    (ds : DeployerState) (pkg rc gh : Option String)
    (spawn : Nat → SpawnOutcome) (respond : Nat → ReqResult)
    (fid : String) :
    (deployPackage pi ds pkg rc gh spawn respond fid).1 = none →
    (deployPackage pi ds pkg rc gh spawn respond fid).2 = ds := by
  simp only [deployPackage]
  split_ifs <;> try (intro _; rfl)
  all_goals split
  all_goals try (intro _; rfl)
  all_goals split
  all_goals try (intro _; rfl)
  all_goals intro h
  all_goals exact absurd h (by simp)

/-- Witness for C6: a deploy that fails (handshake failure) leaves an empty
registry empty. -/
theorem deploy_failure_leaves_registry_unchanged_witness :
    (deployPackage ⟨true, some "/n/npx", false, none⟩ ⟨[]⟩ (some "pkg") none
      none spawnC6w respondC6w "id1").2 = (⟨[]⟩ : DeployerState) :=
  deploy_failure_leaves_registry_unchanged ⟨true, some "/n/npx", false, none⟩
    ⟨[]⟩ (some "pkg") none none spawnC6w respondC6w "id1" rfl

theorem lookup_none_of_not_mem_keys (l : List (String × ServerInfo))
    (sid : String) (h : sid ∉ l.map Prod.fst) : l.lookup sid = none := by
  induction l with
  | nil => rfl
  | cons kv t ih =>
    rcases kv with ⟨k, i⟩
    simp only [List.map_cons, List.mem_cons] at h
    push_neg at h
    have hsk : (sid == k) = false := by
      simp only [beq_eq_false_iff_ne, ne_eq]
      exact h.1
    simp [List.lookup, hsk, ih h.2]

/-- Removing the entry under `sid` from a registry with unique keys leaves
no entry under `sid`. -/
theorem lookup_eraseServer_nodup (l : List (String × ServerInfo))
    (sid : String) (h : (l.map Prod.fst).Nodup) :
    (eraseServer l sid).lookup sid = none := by
  induction l with
  | nil => rfl
  | cons kv t ih =>
    rcases kv with ⟨k, i⟩
    simp only [List.map_cons, List.nodup_cons] at h
    by_cases hk : k = sid
    · subst hk
      simp only [eraseServer, List.eraseP_cons, beq_self_eq_true, if_pos]
      exact lookup_none_of_not_mem_keys t k h.1
    · simp only [eraseServer, List.eraseP_cons] at ih ⊢
      simp only [show (k == sid) = false by simp [hk], cond_false]
      have hsk : (sid == k) = false := by
        simp only [beq_eq_false_iff_ne, ne_eq]
        exact fun he => hk he.symm
      simp [List.lookup, hsk, ih h.2]

/-- C7: terminate idempotence.  On an absent id, `cleanup_server` returns
false and changes nothing; on a present id it returns true and removes the
entry regardless of whether graceful termination succeeded, so a second
call returns false and a lookup reports not-found. -/
theorem terminate_idempotent (ds : DeployerState) (sid : String)
    (g1 g2 : Bool) :
    (ds.activeServers.lookup sid = none →
      cleanupServer ds sid g1 = (false, ds)) ∧
    (∀ info, ds.activeServers.lookup sid = some info →
      (cleanupServer ds sid g1).1 = true ∧
      ((ds.activeServers.map Prod.fst).Nodup →
        ((cleanupServer ds sid g1).2.activeServers.lookup sid = none ∧
          cleanupServer (cleanupServer ds sid g1).2 sid g2 =
            (false, (cleanupServer ds sid g1).2)))) := by
  constructor
  · intro h
    simp only [cleanupServer, h]
  · intro info h
    simp only [cleanupServer, h]
    refine ⟨trivial, ?_⟩
    intro hnd
    have he : (eraseServer ds.activeServers sid).lookup sid = none :=
      lookup_eraseServer_nodup ds.activeServers sid hnd
    exact ⟨he, by simp only [cleanupServer, he]⟩

/-- Witness for C7: terminating the only session succeeds, a repeat
terminate returns false, and the lookup in between reports not-found. -/
theorem terminate_idempotent_witness :
    (cleanupServer dsC7w "s1" true).1 = true ∧
    (cleanupServer dsC7w "s1" true).2.activeServers.lookup "s1" = none ∧
    cleanupServer (cleanupServer dsC7w "s1" true).2 "s1" false =
      (false, (cleanupServer dsC7w "s1" true).2) := by
  have h := (terminate_idempotent dsC7w "s1" true false).2
    ⟨some "pkg", "s1", ⟨none, []⟩, .jarr [], "running"⟩ rfl
  have h2 := h.2 (by simp [dsC7w])
  exact ⟨h.1, h2.1, h2.2⟩

end MCP

